import Mathlib

/-!
Verification of the static file server embedded in `serve.py` of the
RockPaperBattle repository.  The Python script is a process wrapper; the
observable behaviour lives in the Node.js server source inlined at
`serve.py` lines 52-116.  We shallow-embed that request handler here:

* filesystem paths are lists of segments relative to the filesystem root
  (`__dirname`, the server root, is itself such a list);
* the filesystem is an association list from paths to entries; an entry
  is a regular readable file with its byte contents, a directory, or an
  existing-but-unreadable node carrying the error code its read yields
  (modelling permission errors and similar per-request read failures);
* `path.join` followed by Node's normalization of `.` and `..` segments
  is `candidatePath`; the handler `handle` mirrors the source line by
  line (favicon special case at lines 80-87, candidate computation at
  line 89, the `fs.access` existence check with index fallback at lines
  91-94, MIME lookup at lines 96-97, and the read/respond step at lines
  99-108).
-/

/-- A filesystem path: list of name segments below the filesystem root. -/
abbrev FPath := List String

/-- A filesystem entry: a readable regular file with contents (bytes as
naturals), a directory, or an existing node whose read fails with the
given error code (e.g. "EACCES"); mirrors what `fs.access`/`fs.readFile`
can observe in `serve.py` lines 91-104. -/
inductive Entry where
  | file (content : List Nat)
  | dir
  | unreadable (code : String)
deriving DecidableEq, Repr

/-- The filesystem: a finite association of paths to entries. -/
abbrev FS := List (FPath × Entry)

/-- FPath lookup in the filesystem. -/
def fsLookup : FS → FPath → Option Entry
  | [], _ => none
  | (q, e) :: rest, p => if q = p then some e else fsLookup rest p

/-- Model of `fs.access(path, F_OK)` (serve.py line 91): succeeds iff any entry
exists at the path. -/
def fsExists (fs : FS) (p : FPath) : Bool := (fsLookup fs p).isSome

/-- Model of `fs.readFile` (serve.py line 99): contents of a regular file, or the
error code (`ENOENT` when nothing exists, `EISDIR` for a directory, the
recorded code for an unreadable node). -/
def fsRead (fs : FS) (p : FPath) : Except String (List Nat) :=
  match fsLookup fs p with
  | none => .error "ENOENT"
  | some .dir => .error "EISDIR"
  | some (.unreadable c) => .error c
  | some (.file b) => .ok b

/-- An HTTP request as the handler sees it (serve.py line 77): a method
and the raw URL string `req.url`. -/
structure Request where
  method : String
  url : String
deriving DecidableEq, Repr

/-- The response: status code, optional Content-Type header, body bytes.
`res.writeHead(500)` sets no Content-Type, hence the `Option`. -/
structure Response where
  status : Nat
  contentType : Option String
  body : List Nat
deriving DecidableEq, Repr

/-- Bytes of an ASCII/UTF-32-ish string, for response bodies built from
strings (`res.end` with a template literal, serve.py line 102). -/
def strBytes (s : String) : List Nat := s.toList.map Char.toNat

/-- Split a character list at `/` (Node joins and splits paths on the
separator; `req.url` is used verbatim, with no percent-decoding and no
query-string stripping). -/
def splitSlashAux : List Char → List Char → List String
  | [], cur => [String.mk cur.reverse]
  | c :: rest, cur =>
      if c = '/' then String.mk cur.reverse :: splitSlashAux rest []
      else splitSlashAux rest (c :: cur)

/-- The nonempty segments of a raw URL string. -/
def segsOfUrl (u : String) : List String :=
  (splitSlashAux u.toList []).filter (fun s => s != "")

/-- One step of Node's path normalization: `.` is dropped, `..` pops the
last segment (clamped at the root, as for absolute paths), anything else
is appended. -/
def normStep (acc : List String) (s : String) : List String :=
  if s = "." then acc
  else if s = ".." then acc.dropLast
  else acc ++ [s]

/-- Node's path normalization of a segment list (what `path.join` applies
after concatenating its arguments). -/
def normSegs (l : List String) : List String := l.foldl normStep []

/-- Model of `path.join` applied as at serve.py line 89
(`req.url === '/' ? 'index.html' : req.url` joined onto the root): concatenate root and URL segments, then normalize. -/
def candidatePath (root : FPath) (url : String) : FPath :=
  normSegs (root ++ segsOfUrl (if url = "/" then "index.html" else url))

/-- The path actually read (serve.py lines 91-94): the candidate if it
exists, otherwise the root index file (single-page-app fallback). -/
def resolvedPath (fs : FS) (root : FPath) (url : String) : FPath :=
  if fsExists fs (candidatePath root url) then candidatePath root url
  else normSegs (root ++ ["index.html"])

/-- ASCII lowercasing of one character (`String.toLowerCase` in the
source; only ASCII extensions are ever looked up). -/
def lowerChar (c : Char) : Char :=
  if 65 ≤ c.toNat ∧ c.toNat ≤ 90 then Char.ofNat (c.toNat + 32) else c

/-- ASCII lowercasing of a string. -/
def lowerStr (s : String) : String := String.mk (s.toList.map lowerChar)

/-- Model of `path.extname` on a single basename: the substring from the last dot
on, except that a dot in first position (hidden files like `.gitignore`)
or the basename `..` yields the empty string. -/
def extname (b : String) : String :=
  if b = ".." then ""
  else
    let cs := b.toList
    let after := cs.reverse.takeWhile (fun c => c != '.')
    if after.length = cs.length then ""
    else if after.length + 1 = cs.length then ""
    else String.mk ('.' :: after.reverse)

/-- Last segment of a path (the basename `path.extname` inspects; empty
string for the root path). -/
def lastSeg (p : FPath) : String := (p.getLast?).getD ""

/-- The fixed MIME table of serve.py lines 60-75. -/
def MIME_TYPES : List (String × String) :=
  [ (".html", "text/html"),
    (".js", "application/javascript"),
    (".css", "text/css"),
    (".json", "application/json"),
    (".png", "image/png"),
    (".jpg", "image/jpeg"),
    (".jpeg", "image/jpeg"),
    (".gif", "image/gif"),
    (".svg", "image/svg+xml"),
    (".ico", "image/x-icon"),
    (".wav", "audio/wav"),
    (".mp3", "audio/mpeg"),
    (".webp", "image/webp"),
    (".webmanifest", "application/manifest+json") ]

/-- Lookup `MIME_TYPES[extname] || 'application/octet-stream'` (line 97). -/
def mimeLookup (e : String) : String :=
  match MIME_TYPES.lookup e with
  | some ct => ct
  | none => "application/octet-stream"

/-- The fixed favicon asset path `path.join(__dirname, 'assets', 'icons',
'favicon.ico')` (serve.py line 81). -/
def assetPath (root : FPath) : FPath := root ++ ["assets", "icons", "favicon.ico"]

/-- Bytes streamed by `fs.createReadStream(faviconPath).pipe(res)` (line
84) when the asset entry is a regular file.  Stream errors on a
non-file entry abort the socket and produce no well-formed response;
that corner is outside every claim and is abstracted as an empty body. -/
def faviconBytes : Option Entry → List Nat
  | some (.file b) => b
  | _ => []

/-- General handling (serve.py lines 89-108): resolve the path with index
fallback, look up the content type from the resolved path's lowercased
extension (computed at lines 96-97 before the read and used only in the
success response), then read and respond: 500 with `Server Error: code`
and no Content-Type header on failure, 200 with the content type and the
file bytes on success. -/
def generalHandle (fs : FS) (root : FPath) (url : String) : Response :=
  match fsRead fs (resolvedPath fs root url) with
  | .error e => ⟨500, none, strBytes ("Server Error: " ++ e)⟩
  | .ok content =>
      ⟨200, some (mimeLookup (lowerStr (extname (lastSeg (resolvedPath fs root url))))), content⟩

/-- The request handler (serve.py lines 77-110).  The early `return`
inside the favicon branch (lines 80-87) makes it equivalent to this
single conditional: the special case fires exactly when the URL is
`/favicon.ico` and the asset exists, and otherwise control falls through
to general handling. -/
def handle (fs : FS) (root : FPath) (req : Request) : Response :=
  if req.url = "/favicon.ico" ∧ fsExists fs (assetPath root) = true then
    ⟨200, some "image/x-icon", faviconBytes (fsLookup fs (assetPath root))⟩
  else
    generalHandle fs root req.url

/-- The path whose bytes a 200 response carries: the favicon asset when
the special case fires, otherwise the resolved path. -/
def finalPath (fs : FS) (root : FPath) (req : Request) : FPath :=
  if req.url = "/favicon.ico" ∧ fsExists fs (assetPath root) = true then assetPath root
  else resolvedPath fs root req.url

/-- The server loop: every request in sequence gets a response from the
same pure handler; no request is fatal to the process. -/
def runServer (fs : FS) (root : FPath) (reqs : List Request) : List Response :=
  reqs.map (handle fs root)

/-- Environment model for the wrapper (serve.py lines 46-47): an
association of variable names to values, newest first. -/
abbrev Env := List (String × String)

/-- Set a variable, shadowing any earlier value (os.environ assignment). -/
def envSet (env : Env) (k v : String) : Env := (k, v) :: env

/-- Read a variable. -/
def envGet : Env → String → Option String
  | [], _ => none
  | (k2, v) :: rest, k => if k2 = k then some v else envGet rest k

/-- serve.py lines 46-47: the wrapper overwrites `PORT` and `HOST` in the
environment before starting the node process. -/
def setReplitEnv (env : Env) : Env :=
  envSet (envSet env "PORT" "5000") "HOST" "0.0.0.0"

/-- serve.py line 57: `const PORT = 5000;` — a literal; the inlined node
script never reads `process.env`, so the listening port is independent
of the environment it is started with. -/
def serverPort (_env : Env) : Nat := 5000

/-- serve.py line 58: `const HOST = '0.0.0.0';` — likewise a literal. -/
def serverHost (_env : Env) : String := "0.0.0.0"


/-! ### Helper lemmas -/

/-- Folding the normalization step over segments that are neither `.` nor
`..` just appends them. -/
lemma foldl_normStep_clean (b : List String) :
    ∀ acc, (∀ s ∈ b, s ≠ "." ∧ s ≠ "..") → b.foldl normStep acc = acc ++ b := by
  induction b with
  | nil => intro acc _; simp
  | cons s t ih =>
      intro acc h
      have hs := h s (by simp)
      have hstep : normStep acc s = acc ++ [s] := by
        simp [normStep, hs.1, hs.2]
      rw [List.foldl_cons, hstep, ih (acc ++ [s]) (fun x hx => h x (by simp [hx]))]
      simp

/-- Normalization distributes over an appended clean suffix. -/
lemma normSegs_clean_append (a b : List String)
    (hb : ∀ s ∈ b, s ≠ "." ∧ s ≠ "..") :
    normSegs (a ++ b) = normSegs a ++ b := by
  unfold normSegs
  rw [List.foldl_append]
  exact foldl_normStep_clean b _ hb

/-- The last segment of a path with a nonempty suffix is the suffix's. -/
lemma lastSeg_append (a b : FPath) (hb : b ≠ []) : lastSeg (a ++ b) = lastSeg b := by
  simp [lastSeg, List.getLast?_append_of_ne_nil a hb]

/-- Byte encoding distributes over string concatenation. -/
lemma strBytes_append (a b : String) : strBytes (a ++ b) = strBytes a ++ strBytes b := by
  simp [strBytes, String.toList, String.data_append]

/-- Under a clean non-root URL and a normalized root, the candidate is
the root with the URL's segments appended. -/
lemma candidatePath_clean (root : FPath) (url : String) (hurl : url ≠ "/")
    (hroot : normSegs root = root)
    (hclean : ∀ s ∈ segsOfUrl url, s ≠ "." ∧ s ≠ "..") :
    candidatePath root url = root ++ segsOfUrl url := by
  unfold candidatePath
  rw [if_neg hurl, normSegs_clean_append root _ hclean, hroot]

/-- The fallback index path is already normalized when the root is. -/
lemma fallback_norm (root : FPath) (hroot : normSegs root = root) :
    normSegs (root ++ ["index.html"]) = root ++ ["index.html"] := by
  rw [normSegs_clean_append root _ (by decide), hroot]

/-- When the favicon special case does not fire, the handler is general
handling of the URL. -/
lemma handle_fallthrough (fs : FS) (root : FPath) (req : Request)
    (h : ¬(req.url = "/favicon.ico" ∧ fsExists fs (assetPath root) = true)) :
    handle fs root req = generalHandle fs root req.url := by
  simp only [handle, if_neg h]

/-- When the favicon special case fires, the handler answers with the
asset. -/
lemma handle_favicon (fs : FS) (root : FPath) (req : Request)
    (h1 : req.url = "/favicon.ico") (h2 : fsExists fs (assetPath root) = true) :
    handle fs root req =
      ⟨200, some "image/x-icon", faviconBytes (fsLookup fs (assetPath root))⟩ := by
  simp only [handle, if_pos (And.intro h1 h2)]

/-! ### Claim theorems -/

/-- C8: the response is independent of the HTTP method: two requests that
differ only in their method, against the same filesystem, produce the
same status, headers and body (the handler never branches on the
method). -/
theorem method_independence (fs : FS) (root : FPath) (u m1 m2 : String) :
    handle fs root ⟨m1, u⟩ = handle fs root ⟨m2, u⟩ := rfl

/-- C7 counterexample: start the server with PORT=8080 in the
environment; it still listens on port 5000, so the port is not
overridable via the environment (the inlined node script hardcodes
`const PORT = 5000` and never reads `process.env`). -/
theorem port_env_override_ignored :
    serverPort (envSet [] "PORT" "8080") = 5000 ∧ (5000 : Nat) ≠ 8080 := by decide

/-- C7 (amended): the server binds host `0.0.0.0` and port 5000
unconditionally, for every starting environment; the wrapper itself sets
PORT=5000 and HOST=0.0.0.0 in the environment, but the server does not
read them, so supplying a different port value has no effect. -/
theorem port_host_fixed (env : Env) :
    serverPort env = 5000 ∧ serverHost env = "0.0.0.0" ∧
    envGet (setReplitEnv env) "PORT" = some "5000" ∧
    envGet (setReplitEnv env) "HOST" = some "0.0.0.0" := by
  refine ⟨rfl, rfl, ?_, ?_⟩ <;> simp [setReplitEnv, envSet, envGet]

/-- C4: for every URL other than `/`, the candidate filesystem path is
the server root joined with the literal URL string (its raw
slash-separated segments, normalized by `path.join`): no
percent-decoding (`%20` stays in the segment), no query-string stripping
(`?q=1` stays in the segment), and no traversal sanitization — a `..`
URL yields a path outside the server root, which the handler serves with
status 200 rather than rejecting. -/
theorem raw_join_traversal :
    (∀ (root : FPath) (url : String), url ≠ "/" →
        candidatePath root url = normSegs (root ++ segsOfUrl url)) ∧
    candidatePath ["app"] "/a%20b" = ["app", "a%20b"] ∧
    candidatePath ["app"] "/x?q=1" = ["app", "x?q=1"] ∧
    candidatePath ["app"] "/../secret.txt" = ["secret.txt"] ∧
    (candidatePath ["app"] "/../secret.txt").take (["app"].length) ≠ ["app"] ∧
    handle [(["secret.txt"], Entry.file [9])] ["app"] ⟨"GET", "/../secret.txt"⟩ =
      ⟨200, some "application/octet-stream", [9]⟩ := by
  refine ⟨?_, by decide, by decide, by decide, by decide, by decide⟩
  intro root url h
  simp only [candidatePath, if_neg h]

/-- C4 witness: the general clause of `raw_join_traversal` applied at a
concrete non-root URL. -/
theorem raw_join_traversal_witness :
    ("/etc/passwd" ≠ "/") ∧
    candidatePath [] "/etc/passwd" = normSegs ([] ++ segsOfUrl "/etc/passwd") :=
  ⟨by decide, raw_join_traversal.1 [] "/etc/passwd" (by decide)⟩

/-- C5: when the dedicated `assets/icons/favicon.ico` asset exists as a
file, a request for `/favicon.ico` is answered with its bytes and
Content-Type `image/x-icon` — for every filesystem, in particular
regardless of any literal `favicon.ico` file at the root or elsewhere;
when the asset is absent, the request falls through to general
handling. -/
theorem favicon_special_case (fs : FS) (root : FPath) (m : String) :
    (∀ c, fsLookup fs (assetPath root) = some (Entry.file c) →
        handle fs root ⟨m, "/favicon.ico"⟩ = ⟨200, some "image/x-icon", c⟩) ∧
    (fsLookup fs (assetPath root) = none →
        handle fs root ⟨m, "/favicon.ico"⟩ = generalHandle fs root "/favicon.ico") := by
  constructor
  · intro c hc
    have hex : fsExists fs (assetPath root) = true := by
      simp [fsExists, hc]
    rw [handle_favicon fs root ⟨m, "/favicon.ico"⟩ rfl hex, hc]
    rfl
  · intro hn
    apply handle_fallthrough
    rintro ⟨_, h2⟩
    rw [fsExists, hn] at h2
    exact absurd h2 (by decide)

/-- C5 witness: a one-file filesystem holding only the asset; the
request is answered with the asset bytes. -/
theorem favicon_special_case_witness :
    fsLookup [(["assets", "icons", "favicon.ico"], Entry.file [8])] (assetPath []) =
      some (Entry.file [8]) ∧
    handle [(["assets", "icons", "favicon.ico"], Entry.file [8])] []
      ⟨"GET", "/favicon.ico"⟩ = ⟨200, some "image/x-icon", [8]⟩ :=
  ⟨by decide,
   (favicon_special_case [(["assets", "icons", "favicon.ico"], Entry.file [8])] [] "GET").1
     [8] (by decide)⟩

/-- C1 counterexample: a file named `favicon.ico` exists at the server
root with contents `[1]`, its extension `.ico` is a key of the MIME
table, yet requesting its path `/favicon.ico` returns the dedicated
asset's bytes `[2]` — not a body byte-identical to the root file. -/
theorem favicon_shadows_root_file :
    fsLookup [(["favicon.ico"], Entry.file [1]),
              (["assets", "icons", "favicon.ico"], Entry.file [2])] ["favicon.ico"] =
      some (Entry.file [1]) ∧
    candidatePath [] "/favicon.ico" = ["favicon.ico"] ∧
    MIME_TYPES.lookup ".ico" = some "image/x-icon" ∧
    handle [(["favicon.ico"], Entry.file [1]),
            (["assets", "icons", "favicon.ico"], Entry.file [2])] []
      ⟨"GET", "/favicon.ico"⟩ = ⟨200, some "image/x-icon", [2]⟩ ∧
    ([2] : List Nat) ≠ [1] := by decide

/-- C1 (amended): for every readable file under the server root reachable
at a clean URL (no empty, `.` or `..` segments) whose extension is a key
of the MIME table, requesting its path returns status 200, the table's
content type for that extension, and a body byte-identical to the file's
contents — except a request for `/favicon.ico` while the dedicated
`assets/icons/favicon.ico` asset exists, which is answered with the
asset's bytes instead. -/
theorem existing_file_served (fs : FS) (root : FPath) (m url : String)
    (c : List Nat) (ct : String)
    (hroot : normSegs root = root)
    (hurl : url ≠ "/")
    (hclean : ∀ s ∈ segsOfUrl url, s ≠ "." ∧ s ≠ "..")
    (hfav : url ≠ "/favicon.ico" ∨ fsLookup fs (assetPath root) = none)
    (hfile : fsLookup fs (root ++ segsOfUrl url) = some (Entry.file c))
    (hct : MIME_TYPES.lookup (lowerStr (extname (lastSeg (root ++ segsOfUrl url)))) =
      some ct) :
    handle fs root ⟨m, url⟩ = ⟨200, some ct, c⟩ := by
  have hcand : candidatePath root url = root ++ segsOfUrl url :=
    candidatePath_clean root url hurl hroot hclean
  have hnofav :
      ¬((⟨m, url⟩ : Request).url = "/favicon.ico" ∧ fsExists fs (assetPath root) = true) := by
    rintro ⟨h1, h2⟩
    rcases hfav with h | h
    · exact h h1
    · rw [fsExists, h] at h2
      exact absurd h2 (by decide)
  rw [handle_fallthrough fs root _ hnofav]
  have hres : resolvedPath fs root url = root ++ segsOfUrl url := by
    simp only [resolvedPath, hcand, fsExists, hfile, Option.isSome_some, if_true]
  simp only [generalHandle, hres, fsRead, hfile, mimeLookup, hct]

/-- C1 witness: a one-file filesystem with `a.html` at the root; its
request is served verbatim as `text/html`. -/
theorem existing_file_served_witness :
    fsLookup [(["a.html"], Entry.file [3])] ([] ++ segsOfUrl "/a.html") =
      some (Entry.file [3]) ∧
    handle [(["a.html"], Entry.file [3])] [] ⟨"GET", "/a.html"⟩ =
      ⟨200, some "text/html", [3]⟩ :=
  ⟨by decide,
   existing_file_served [(["a.html"], Entry.file [3])] [] "GET" "/a.html" [3] "text/html"
     (by decide) (by decide) (by decide) (Or.inl (by decide)) (by decide) (by decide)⟩

/-- C2: a request whose resolved candidate path does not exist is
answered with status 200 and the contents of the root index file
(single-page-application fallback), provided the favicon special case
does not intercept it (`/favicon.ico` with the asset present). -/
theorem missing_path_serves_index (fs : FS) (root : FPath) (m url : String)
    (ic : List Nat)
    (hroot : normSegs root = root)
    (hmiss : fsLookup fs (candidatePath root url) = none)
    (hindex : fsLookup fs (root ++ ["index.html"]) = some (Entry.file ic))
    (hfav : url ≠ "/favicon.ico" ∨ fsLookup fs (assetPath root) = none) :
    handle fs root ⟨m, url⟩ = ⟨200, some "text/html", ic⟩ := by
  have hnofav :
      ¬((⟨m, url⟩ : Request).url = "/favicon.ico" ∧ fsExists fs (assetPath root) = true) := by
    rintro ⟨h1, h2⟩
    rcases hfav with h | h
    · exact h h1
    · rw [fsExists, h] at h2
      exact absurd h2 (by decide)
  rw [handle_fallthrough fs root _ hnofav]
  have hres : resolvedPath fs root url = root ++ ["index.html"] := by
    simp only [resolvedPath, fsExists, hmiss, Option.isSome_none, Bool.false_eq_true,
      if_false, fallback_norm root hroot]
  have hlast : lastSeg (root ++ ["index.html"]) = "index.html" :=
    lastSeg_append root _ (by decide)
  simp only [generalHandle, hres, fsRead, hindex, hlast]
  have hmime : mimeLookup (lowerStr (extname "index.html")) = "text/html" := by decide
  rw [hmime]

/-- C2 witness: requesting `/nope` against a filesystem holding only the
index file serves the index as `text/html`. -/
theorem missing_path_serves_index_witness :
    fsLookup [(["index.html"], Entry.file [7])] (candidatePath [] "/nope") = none ∧
    handle [(["index.html"], Entry.file [7])] [] ⟨"GET", "/nope"⟩ =
      ⟨200, some "text/html", [7]⟩ :=
  ⟨by decide,
   missing_path_serves_index [(["index.html"], Entry.file [7])] [] "GET" "/nope" [7]
     (by decide) (by decide) (by decide) (Or.inl (by decide))⟩

/-- C3: when reading the resolved file fails with some error code, the
response has status 500, no Content-Type, and a plain-text body
containing that error code; the failure is per-request and never fatal:
the server loop answers every subsequent request exactly as the pure
handler does. -/
theorem read_failure_yields_500 (fs : FS) (root : FPath) (req : Request) (e : String)
    (hfav : ¬(req.url = "/favicon.ico" ∧ fsExists fs (assetPath root) = true))
    (hread : fsRead fs (resolvedPath fs root req.url) = .error e) :
    handle fs root req = ⟨500, none, strBytes ("Server Error: " ++ e)⟩ ∧
    (∃ pre post, (handle fs root req).body = pre ++ strBytes e ++ post) ∧
    (∀ rest : List Request, runServer fs root (req :: rest) =
        handle fs root req :: runServer fs root rest) := by
  have h1 : handle fs root req = ⟨500, none, strBytes ("Server Error: " ++ e)⟩ := by
    rw [handle_fallthrough fs root req hfav]
    simp only [generalHandle, hread]
  refine ⟨h1, ⟨strBytes "Server Error: ", [], ?_⟩, fun rest => rfl⟩
  rw [h1, strBytes_append]
  simp

/-- C3 witness: an empty filesystem; the fallback index read fails with
ENOENT and the response is a 500 carrying that code. -/
theorem read_failure_yields_500_witness :
    fsRead [] (resolvedPath [] [] "/x") = .error "ENOENT" ∧
    handle [] [] ⟨"GET", "/x"⟩ =
      ⟨500, none, strBytes ("Server Error: " ++ "ENOENT")⟩ :=
  ⟨rfl,
   (read_failure_yields_500 [] [] ⟨"GET", "/x"⟩ "ENOENT" (by decide) rfl).1⟩

/-- C9: a request for exactly `/` resolves directly to the root index
file — the candidate and the fallback coincide there, so the
existence-check step cannot redirect it anywhere else — and, when the
index file exists, returns its contents with Content-Type `text/html`. -/
theorem root_url_serves_index (fs : FS) (root : FPath) (m : String) (ic : List Nat)
    (hroot : normSegs root = root)
    (hindex : fsLookup fs (root ++ ["index.html"]) = some (Entry.file ic)) :
    resolvedPath fs root "/" = root ++ ["index.html"] ∧
    handle fs root ⟨m, "/"⟩ = ⟨200, some "text/html", ic⟩ := by
  have hcand : candidatePath root "/" = root ++ ["index.html"] := by
    unfold candidatePath
    rw [if_pos rfl]
    have hseg : segsOfUrl "index.html" = ["index.html"] := by decide
    rw [hseg, fallback_norm root hroot]
  have hres : resolvedPath fs root "/" = root ++ ["index.html"] := by
    simp only [resolvedPath, hcand, fsExists, hindex, Option.isSome_some, if_true,
      fallback_norm root hroot]
  refine ⟨hres, ?_⟩
  have hnofav :
      ¬((⟨m, "/"⟩ : Request).url = "/favicon.ico" ∧ fsExists fs (assetPath root) = true) := by
    rintro ⟨h1, _⟩
    have h2 : ("/" : String) = "/favicon.ico" := h1
    exact absurd h2 (by decide)
  rw [handle_fallthrough fs root _ hnofav]
  have hlast : lastSeg (root ++ ["index.html"]) = "index.html" :=
    lastSeg_append root _ (by decide)
  simp only [generalHandle, hres, fsRead, hindex, hlast]
  have hmime : mimeLookup (lowerStr (extname "index.html")) = "text/html" := by decide
  rw [hmime]

/-- C9 witness: a filesystem holding only the index file; `/` serves it
as `text/html`. -/
theorem root_url_serves_index_witness :
    fsLookup [(["index.html"], Entry.file [5])] ([] ++ ["index.html"]) =
      some (Entry.file [5]) ∧
    handle [(["index.html"], Entry.file [5])] [] ⟨"GET", "/"⟩ =
      ⟨200, some "text/html", [5]⟩ :=
  ⟨by decide,
   (root_url_serves_index [(["index.html"], Entry.file [5])] [] "GET" [5]
     (by decide) (by decide)).2⟩

/-- C10: when the candidate path names an existing directory, the
existence check succeeds, so no index fallback happens; the read then
fails with EISDIR and the response is a 500 whose body carries that
code — not the single-page-application fallback page. -/
theorem directory_read_eisdir (fs : FS) (root : FPath) (req : Request)
    (hdir : fsLookup fs (candidatePath root req.url) = some Entry.dir)
    (hfav : ¬(req.url = "/favicon.ico" ∧ fsExists fs (assetPath root) = true)) :
    resolvedPath fs root req.url = candidatePath root req.url ∧
    handle fs root req = ⟨500, none, strBytes ("Server Error: " ++ "EISDIR")⟩ ∧
    (∃ pre post, (handle fs root req).body = pre ++ strBytes "EISDIR" ++ post) := by
  have hres : resolvedPath fs root req.url = candidatePath root req.url := by
    simp only [resolvedPath, fsExists, hdir, Option.isSome_some, if_true]
  have h1 : handle fs root req = ⟨500, none, strBytes ("Server Error: " ++ "EISDIR")⟩ := by
    rw [handle_fallthrough fs root req hfav]
    simp only [generalHandle, hres, fsRead, hdir]
  refine ⟨hres, h1, strBytes "Server Error: ", [], ?_⟩
  rw [h1, strBytes_append]
  simp

/-- C10 witness: a filesystem holding one directory `d`; requesting `/d`
yields a 500 with EISDIR. -/
theorem directory_read_eisdir_witness :
    fsLookup [(["d"], Entry.dir)] (candidatePath [] "/d") = some Entry.dir ∧
    handle [(["d"], Entry.dir)] [] ⟨"GET", "/d"⟩ =
      ⟨500, none, strBytes ("Server Error: " ++ "EISDIR")⟩ :=
  ⟨by decide,
   (directory_read_eisdir [(["d"], Entry.dir)] [] ⟨"GET", "/d"⟩
     (by decide) (by decide)).2.1⟩

/-- C6 counterexample: a 500 response (here: empty filesystem, so even
the fallback index read fails) carries no Content-Type header at all,
although the resolved path's extension `.html` maps to `text/html` in
the table — so not every response's Content-Type is determined by the
table. -/
theorem error_response_has_no_content_type :
    (handle [] [] ⟨"GET", "/x"⟩).status = 500 ∧
    (handle [] [] ⟨"GET", "/x"⟩).contentType = none ∧
    extname (lastSeg (resolvedPath [] [] "/x")) = ".html" ∧
    mimeLookup ".html" = "text/html" := by decide

/-- C6 (amended): every response with status 200 carries a Content-Type
determined from the final served path's extension, lowercased, via the
fixed MIME table, whose entries are exactly the thirteen listed types
(with `.jpg` and `.jpeg` sharing one); any extension not in the table
yields `application/octet-stream`; 500 responses carry no Content-Type
header. -/
theorem content_type_from_mime_table (fs : FS) (root : FPath) (req : Request) :
    ((handle fs root req).status = 200 →
      (handle fs root req).contentType =
        some (mimeLookup (lowerStr (extname (lastSeg (finalPath fs root req)))))) ∧
    (mimeLookup ".html" = "text/html" ∧ mimeLookup ".js" = "application/javascript" ∧
     mimeLookup ".css" = "text/css" ∧ mimeLookup ".json" = "application/json" ∧
     mimeLookup ".png" = "image/png" ∧ mimeLookup ".jpg" = "image/jpeg" ∧
     mimeLookup ".jpeg" = "image/jpeg" ∧ mimeLookup ".gif" = "image/gif" ∧
     mimeLookup ".svg" = "image/svg+xml" ∧ mimeLookup ".ico" = "image/x-icon" ∧
     mimeLookup ".wav" = "audio/wav" ∧ mimeLookup ".mp3" = "audio/mpeg" ∧
     mimeLookup ".webp" = "image/webp" ∧
     mimeLookup ".webmanifest" = "application/manifest+json") ∧
    (∀ e, MIME_TYPES.lookup e = none → mimeLookup e = "application/octet-stream") := by
  refine ⟨?_, by decide, fun e he => by simp only [mimeLookup, he]⟩
  by_cases hf : req.url = "/favicon.ico" ∧ fsExists fs (assetPath root) = true
  · intro _
    simp only [handle, finalPath, if_pos hf]
    have hlast : lastSeg (assetPath root) = "favicon.ico" := by
      rw [assetPath]
      rw [lastSeg_append root _ (by decide)]
      decide
    rw [hlast]
    decide
  · simp only [handle, finalPath, if_neg hf]
    cases hr : fsRead fs (resolvedPath fs root req.url) with
    | error e =>
        simp only [generalHandle, hr]
        intro h200
        exact absurd h200 (by decide)
    | ok c =>
        simp only [generalHandle, hr]
        intro _
        trivial

/-- C6 witness: a 200 response (serving the index at `/`) whose
Content-Type is exactly the table lookup on the final path's lowercased
extension. -/
theorem content_type_from_mime_table_witness :
    (handle [(["index.html"], Entry.file [1])] [] ⟨"GET", "/"⟩).status = 200 ∧
    (handle [(["index.html"], Entry.file [1])] [] ⟨"GET", "/"⟩).contentType =
      some (mimeLookup (lowerStr (extname (lastSeg
        (finalPath [(["index.html"], Entry.file [1])] [] ⟨"GET", "/"⟩))))) :=
  ⟨by decide,
   (content_type_from_mime_table [(["index.html"], Entry.file [1])] []
     ⟨"GET", "/"⟩).1 (by decide)⟩
